import Mathlib

/-!
Shallow embedding of `src/manga_reader.py` (class `MangaReader`), together with
theorems checking the natural-language specification of the program against the
code.  Python strings are modelled as `String` (or `List Char` where character
level reasoning is needed), Python dicts keyed by chapter number as association
lists with dict insertion semantics, and the network/HTML-parsing boundary
(`urllib`, `BeautifulSoup`) as explicit oracles supplied to the embedded
functions.
-/

set_option autoImplicit false

namespace MangaReader

variable {α : Type}

/-! ## Python dict model (`self._available_chapters` is a dict keyed by chapter number) -/

/-- Python `d.get(k)` / `d[k]` on an insertion-ordered dict represented as an
association list. -/
def dictLookup (k : Nat) : List (Nat × α) → Option α
  | [] => none
  | (k2, v) :: t => if k = k2 then some v else dictLookup k t

/-- Python `d[k] = v`: replaces the value in place if the key is present,
otherwise appends the new binding (dicts preserve insertion order). -/
def dictInsert (k : Nat) (v : α) : List (Nat × α) → List (Nat × α)
  | [] => [(k, v)]
  | (k2, v2) :: t => if k = k2 then (k, v) :: t else (k2, v2) :: dictInsert k v t

/-- Python `old.update(upd)`: inserts every binding of `upd`, in order, into `old`. -/
def dictUpdate (old upd : List (Nat × α)) : List (Nat × α) :=
  upd.foldl (fun acc kv => dictInsert kv.1 kv.2 acc) old

/-- The chapter index: chapter number -> (chapter url, page count), mirroring
`self._available_chapters` (line 66). -/
abbrev Index := List (Nat × (String × Nat))

/-! ## Constructor parameter defaulting (lines 63-73) -/

/-- Line 64: `self._retry_count = retries if retries > 0 else 3`. -/
def init_retry_count (retries : Int) : Int := if retries > 0 then retries else 3

/-- Line 71: `self._wait_time = wait_time if wait_time > 0 else 5`. -/
def init_wait_time (wait_time : Int) : Int := if wait_time > 0 then wait_time else 5

/-- Line 72: `self._retry_after = retry_after if retry_after > 0 else 10`. -/
def init_retry_after (retry_after : Int) : Int := if retry_after > 0 then retry_after else 10

/-! ## Page-file naming (lines 328 and 365) -/

/-- Python format spec `0wd`: decimal rendering of `n`, left padded with zeros
to width `w`. -/
def pyZeroPad (w n : Nat) : String :=
  let s := Nat.repr n
  if s.length < w then String.mk (List.replicate (w - s.length) '0') ++ s else s

/-- Line 328: `image_name = "{}-{:02d}.jpeg".format(chapter_num, chapter_page)` —
the file name `get_chapter` tests with `os.path.exists` for skip detection. -/
def image_name_skip (chapter_num chapter_page : Nat) : String :=
  Nat.repr chapter_num ++ "-" ++ pyZeroPad 2 chapter_page ++ ".jpeg"

/-- Line 365: `image_name = "{:03d}-{}.jpeg".format(chapter_num, page_num)` —
the file name `get_chapter_page` passes to `save_image`, i.e. the name a page
download actually writes. -/
def image_name_write (chapter_num page_num : Nat) : String :=
  pyZeroPad 3 chapter_num ++ "-" ++ Nat.repr page_num ++ ".jpeg"

/-- Lines 327-332: the page numbers of chapter `chapter_num` for which a second
`get_chapter` pass calls `get_chapter_page` (i.e. for which the skip-detection
file name is not reported present by the file system `present`). -/
def pagesToFetch (present : String → Bool) (chapter_num page_count : Nat) : List Nat :=
  (List.range' 1 page_count).filter (fun p => ! present (image_name_skip chapter_num p))

/-- Lines 360-366: the files written by a first, fully successful download pass
over chapter `chapter_num` with `page_count` pages. -/
def firstPassFiles (chapter_num page_count : Nat) : List String :=
  (List.range' 1 page_count).map (image_name_write chapter_num)

/-! ## Page-number boundary check (lines 349-358) -/

/-- The action `get_chapter_page` takes before any network traffic: report the
chapter unavailable, report the page unavailable, or fetch the page view URL. -/
inductive PageAction where
  | chapterUnavailable : PageAction
  | pageUnavailable : PageAction
  | fetchPage (url : String) : PageAction
deriving DecidableEq

/-- Lines 349-358 of `get_chapter_page`: resolve the chapter record
(`self._available_chapters.get(chapter_num, (None, 0))`, with `if not
chapter_url` treating both `None` and the empty string as unavailable), then
the boundary test `elif 0 >= page_num > chapter_pages_count` — a Python chained
comparison, i.e. `0 >= page_num and page_num > chapter_pages_count` — and
otherwise the fetch of `"{}/{}".format(chapter_url, page_num)`. -/
def get_chapter_page_action (index : Index) (chapter_num : Nat) (page_num : Int) : PageAction :=
  match dictLookup chapter_num index with
  | none => PageAction.chapterUnavailable
  | some (url, cnt) =>
    if url = "" then PageAction.chapterUnavailable
    else if 0 ≥ page_num ∧ page_num > (cnt : Int) then PageAction.pageUnavailable
    else PageAction.fetchPage (url ++ "/" ++ toString page_num)

/-! ## Working-directory effect of `get_chapter` (lines 317-334) -/

/-- Python `str.split("/")` on a character list: splits at every separator,
keeping empty chunks (`splitSlash "a//b" = ["a", "", "b"]`, `splitSlash "" = [""]`). -/
def splitSlash : List Char → List (List Char)
  | [] => [[]]
  | c :: t =>
    if c = '/' then [] :: splitSlash t
    else
      match splitSlash t with
      | [] => [[c]]
      | s :: ss => (c :: s) :: ss

/-- Model of `os.chdir` on a POSIX-style path: an absolute path replaces the current
directory, a relative path is resolved against it; `.` components are
identity. The current directory is modelled as its list of components. -/
def chdirModel (cwd : List String) (path : String) : List String :=
  let comps := ((splitSlash path.toList).filter
      (fun c => !(c == ([] : List Char)) && !(c == ['.']))).map (fun l => String.mk l)
  if path.toList.head? = some '/' then comps else cwd ++ comps

/-- Line 317: `chapter_dir_name = "CH-{:03d}".format(chapter_num)`. -/
def chapter_dir_name (chapter_num : Nat) : String := "CH-" ++ pyZeroPad 3 chapter_num

/-- The working directory after `get_chapter` for an available chapter: line
324 `os.chdir(chapter_dir_name)` descends into the chapter directory and line
334 `os.chdir(self._target_dir)` is what runs after the page loop. -/
def get_chapter_cwd (entry_cwd : List String) (target_dir : String) (chapter_num : Nat) :
    List String :=
  chdirModel (chdirModel entry_cwd (chapter_dir_name chapter_num)) target_dir

/-! ## Series-URL validation (`validate_url`, lines 141-167) -/

/-- Python `str.strip("/")`: remove leading and trailing slash characters. -/
def stripSlashes (l : List Char) : List Char :=
  ((l.dropWhile (fun c => c == '/')).reverse.dropWhile (fun c => c == '/')).reverse

/-- The two components of `urllib.parse.urlparse(url)` that `validate_url`
inspects, as character lists.  When the netloc is non-empty, `urlparse`
produces a path that is either empty or starts with a slash. -/
structure ParsedUrl where
  netloc : List Char
  path : List Char
deriving DecidableEq

/-- The value of `parse.urlparse(self._base_address).netloc` for
`self._base_address = 'http://www.mangareader.net/'` (lines 44 and 152). -/
def base_netloc : List Char := "www.mangareader.net".toList

/-- Lines 141-167, `validate_url` applied to the parsed URL: reject a netloc
differing from the base address netloc (line 152), an empty path (line 156,
Python falsiness of the empty string), and a path for which
`parsed_url.path[1:].strip("/").split("/")` has more than one chunk (line
160); accept otherwise. -/
def validate_url (u : ParsedUrl) : Bool :=
  if u.netloc ≠ base_netloc then false
  else if u.path = [] then false
  else if (splitSlash (stripSlashes (u.path.drop 1))).length > 1 then false
  else true

/-- The non-empty segments of a URL path — the spec's notion of path segment. -/
def spec_segments (path : List Char) : List (List Char) :=
  (splitSlash path).filter (fun s => !s.isEmpty)

/-- The validation rule exactly as claim C9 states it, following the spec's
words: same source domain, non-empty path, exactly one path segment. -/
def spec_valid_series_exact (u : ParsedUrl) : Bool :=
  u.netloc == base_netloc && !u.path.isEmpty && ((spec_segments u.path).length == 1)

/-- Apply `f` to the last chunk of a list of chunks (used to relate
`splitSlash` to list reversal). -/
def modLast (f : List Char → List Char) : List (List Char) → List (List Char)
  | [] => []
  | a :: rest =>
    match rest with
    | [] => [f a]
    | _ :: _ => a :: modLast f rest

/-! ## Progress store (lines 272-304) -/

/-- Lines 272-288, `save_chapter_list`: the persisted pickle file (modelled as
`Option Index`, `none` = file absent) after saving `available`; if a file
exists its contents are loaded, `old_chapters.update(self._available_chapters)`
is applied, and the merge is written back. -/
def save_chapter_list (store : Option Index) (available : Index) : Option Index :=
  match store with
  | none => some available
  | some old => some (dictUpdate old available)

/-- Lines 290-304, `load_chapter_list`: returns the persisted index, or `none`
(`status = False`) when no file exists. -/
def load_chapter_list (store : Option Index) : Option Index := store

/-! ## HTTP fetcher (`get_page_source`, lines 169-219) -/

/-- One attempt of the backing transport: either the request raises before a
body is read (network error, timeout, `ContentTooShortError`, ...), or a
response with a status code and body is read. -/
inductive Attempt where
  | exc : Attempt
  | resp (code : Nat) (body : String) : Attempt

/-- An attempt succeeds exactly when a response with status code 200 was read
(line 186). -/
def attemptOk : Attempt → Bool
  | Attempt.resp 200 _ => true
  | _ => false

/-- Lines 169-219, `get_page_source`: the backing transport is an oracle `tr`
giving the outcome of the n-th attempt made by the process; `i` indexes the
first attempt of this call and `r` is the remaining retry budget
(`retry_count`).  Returns (number of attempts made, `status`, `page_src`).
Every exception is caught (lines 195-208), and the `finally` block (lines
210-217) re-enters with `retry_count - 1` while the budget lasts, returning
the recursive result; with the budget exhausted it falls through to line 219
and returns `(status, page_src)` — where `page_src` still holds the body read
at line 185 when the failure was a non-200 status rather than an exception. -/
def get_page_source (tr : Nat → Attempt) (i : Nat) : Nat → Nat × Bool × Option String
  | 0 =>
    match tr i with
    | Attempt.exc => (1, false, none)
    | Attempt.resp c body => if c = 200 then (1, true, some body) else (1, false, some body)
  | r + 1 =>
    match tr i with
    | Attempt.exc =>
      let out := get_page_source tr (i + 1) r
      (out.1 + 1, out.2)
    | Attempt.resp c body =>
      if c = 200 then (1, true, some body)
      else
        let out := get_page_source tr (i + 1) r
        (out.1 + 1, out.2)

/-! ## Request pacing (lines 73 and 182-193) -/

/-- One observed request of the fetcher: the time the transport call is
initiated (right after the busy-wait of lines 182-183 exits), the time it
returns, and whether it completed (so that line 193 runs) rather than raising
mid-request. -/
structure FetchEvent where
  start : Nat
  finish : Nat
  completed : Bool

/-- Line 193, `self._next_request_time = time.time() + self._wait_time`,
executed exactly when the request completed without raising: the next-allowed
request time after an event. -/
def nextAfter (wait_time next : Nat) (e : FetchEvent) : Nat :=
  if e.completed then e.finish + wait_time else next

/-- The request traces a single fetcher can produce: each request is initiated
no earlier than the current next-allowed time (the busy-wait
`while time.time() < self._next_request_time: pass`, lines 182-183, exits only
once the clock has reached it), finishes no earlier than it starts, and
advances the next-allowed time per `nextAfter`. -/
def validTrace (wait_time : Nat) : Nat → List FetchEvent → Bool
  | _, [] => true
  | next, e :: rest =>
    decide (next ≤ e.start) && decide (e.start ≤ e.finish) &&
      validTrace wait_time (nextAfter wait_time next e) rest

/-- A concrete two-request trace with wait interval 5, used to witness the
pacing theorem. -/
def c4_trace : List FetchEvent :=
  [FetchEvent.mk 0 1 true, FetchEvent.mk 6 7 true]

/-! ## Chapter discovery (`get_chapter_list`, lines 221-270) -/

/-- Line 44: `self._base_address = 'http://www.mangareader.net/'`. -/
def base_address : String := "http://www.mangareader.net/"

/-- Model of `urllib.parse.urljoin(self._base_address, chapter_url)` (line 237),
abstracted as a deterministic composition of base address and relative link;
the claims settled here depend only on it being a function of its arguments. -/
def urljoin (base url : String) : String := base ++ url

/-- The three outcomes of the page-count extraction of lines 242-245: the
`div#selectpage` selection may be empty (`absent`, the falsy branch handled at
lines 248-251), or present with
`int(chapter_pages[0].text.strip().split()[-1])` either producing a number
(`found`) or raising an uncaught `IndexError`/`ValueError` (`malformed`: the
marker's text is empty, so `[-1]` fails, or its last token is not a
numeral, so `int` fails). -/
inductive PageCountOutcome where
  | found (n : Nat) : PageCountOutcome
  | absent : PageCountOutcome
  | malformed : PageCountOutcome
deriving DecidableEq

/-- The network and markup oracle for a discovery run: `fetch url` is the
outcome of `get_page_source(url)` (`some html` iff `status` was true and
`page_html` the body), `chapter_links html` the hrefs selected by
`#chapterlist a` (lines 232-236), and `page_count html` the outcome of
selecting `div#selectpage` and parsing its text (lines 242-245, see
`PageCountOutcome`).  Outcomes are functions of their arguments: transport and
markup are modelled as deterministic over a run. -/
structure Scenario where
  manga_url : String
  fetch : String → Option String
  chapter_links : String → List String
  page_count : String → PageCountOutcome

/-- The uncaught faults discovery can raise.  `discoveryError` is line 251,
`raise (Exception, "Failed to locate chapter {} pages count!")` — in Python 3
raising a tuple itself raises a `TypeError`, but either way an exception
propagates.  `parseError` is the `IndexError`/`ValueError` escaping the parse
`int(chapter_pages[0].text.strip().split()[-1])` at line 245 when the marker
is present but unparsable; it is raised before either recording line runs, so
no entry is written for that chapter.  `get_chapter_list` has no handler for
either, nor do its callers. -/
inductive PyErr where
  | discoveryError (chapter_num : Nat) : PyErr
  | parseError (chapter_num : Nat) : PyErr
deriving DecidableEq

/-- The chapter links of the series page under scenario `sc` (line 232); empty
when the series fetch fails. -/
def seriesLinks (sc : Scenario) : List String :=
  match sc.fetch sc.manga_url with
  | some html => sc.chapter_links html
  | none => []

/-- Lines 235-258, the `for ch_num, ch_obj in enumerate(chapters_links,
start=1)` loop of `get_chapter_list`: `num` is the chapter number of the first
remaining link, `st` the current `self._available_chapters`, and `recurse` the
retry re-entry `self.get_chapter_list(retry_count=retry_count - 1)` of line
256, taken when a chapter page fetch fails while the budget `r` is positive
(an exception raised inside that recursive call propagates; otherwise the loop
continues with the state the recursive call built).  On a present page-count
marker the parse of line 245 either yields the count (recorded, line 246) or
raises out of the loop with nothing recorded (`malformed`); on an absent
marker the sentinel entry is recorded (line 250) and the raise of line 251
aborts the loop. -/
def chapterLoop (sc : Scenario) (recurse : Index → Index × Option PyErr) (r : Nat) :
    Nat → List String → Index → Index × Option PyErr
  | _, [], st => (st, none)
  | num, link :: rest, st =>
    let chapter_url := urljoin base_address link
    match sc.fetch chapter_url with
    | some html =>
      match sc.page_count html with
      | PageCountOutcome.found cnt =>
        chapterLoop sc recurse r (num + 1) rest (dictInsert num (chapter_url, cnt) st)
      | PageCountOutcome.malformed => (st, some (PyErr.parseError num))
      | PageCountOutcome.absent =>
        (dictInsert num (chapter_url, 0) st, some (PyErr.discoveryError num))
    | none =>
      if r > 0 then
        match recurse st with
        | (st2, some e) => (st2, some e)
        | (st2, none) => chapterLoop sc recurse r (num + 1) rest st2
      else chapterLoop sc recurse r (num + 1) rest st

/-- Lines 221-270, `get_chapter_list`: fetch the series page; on failure retry
the whole discovery while the budget lasts (lines 265-270); given the page,
select the chapter links (an empty selection just logs and stops, lines
262-263) and run the chapter loop.  Returns the final
`self._available_chapters` together with the uncaught exception if one
propagates. -/
def get_chapter_list (sc : Scenario) : Nat → Index → Index × Option PyErr
  | 0, st =>
    match sc.fetch sc.manga_url with
    | some html =>
      let links := sc.chapter_links html
      if links = [] then (st, none)
      else chapterLoop sc (fun s => (s, none)) 0 1 links st
    | none => (st, none)
  | r + 1, st =>
    match sc.fetch sc.manga_url with
    | some html =>
      let links := sc.chapter_links html
      if links = [] then (st, none)
      else chapterLoop sc (fun s => get_chapter_list sc r s) (r + 1) 1 links st
    | none => get_chapter_list sc r st

/-- The positional invariant of a recorded chapter entry: its chapter number
is a valid 1-based position among the discovered links and its URL is the one
joined from the link at exactly that position (so the URL is a function of the
position and can never be changed by later operations of the same run). -/
def EntryOk (sc : Scenario) (e : Nat × (String × Nat)) : Prop :=
  1 ≤ e.1 ∧ ∃ link, (seriesLinks sc).get? (e.1 - 1) = some link ∧
    e.2.1 = urljoin base_address link

/-- Every fetch and page-count extraction of a discovery run succeeds: the
series page is fetched, and each linked chapter page is fetched and carries a
parsable page-count marker. -/
def AllSuccess (sc : Scenario) : Prop :=
  (sc.fetch sc.manga_url).isSome = true ∧
    ∀ link ∈ seriesLinks sc, ∃ html cnt,
      sc.fetch (urljoin base_address link) = some html ∧
        sc.page_count html = PageCountOutcome.found cnt

/-- The page-count marker at discovery position `n` (when its chapter page is
fetched) does not make the parse of line 245 raise.  Every recorded index
entry sits at such a position: both recording branches (lines 246 and 250)
require the extraction to have produced a count or the marker to be absent. -/
def NotMalformedAt (sc : Scenario) (n : Nat) : Prop :=
  ∀ link html, (seriesLinks sc).get? (n - 1) = some link →
    sc.fetch (urljoin base_address link) = some html →
    sc.page_count html ≠ PageCountOutcome.malformed

/-- A concrete discovery scenario in which everything succeeds: two chapter
links with 3 and 2 pages. -/
def scOk : Scenario where
  manga_url := "M"
  fetch := fun u =>
    if u = "M" then some "S"
    else if u = urljoin base_address "c1" then some "H1"
    else if u = urljoin base_address "c2" then some "H2"
    else none
  chapter_links := fun h => if h = "S" then ["c1", "c2"] else []
  page_count := fun h =>
    if h = "H1" then PageCountOutcome.found 3
    else if h = "H2" then PageCountOutcome.found 2
    else PageCountOutcome.absent

/-- A concrete discovery scenario whose single chapter page lacks the
page-count marker (`div#selectpage` absent). -/
def scMissing : Scenario where
  manga_url := "M"
  fetch := fun u =>
    if u = "M" then some "S"
    else if u = urljoin base_address "c1" then some "H1"
    else none
  chapter_links := fun h => if h = "S" then ["c1"] else []
  page_count := fun _ => PageCountOutcome.absent

/-- A concrete discovery scenario whose single chapter page carries a present
but unparsable page-count marker, so the parse of line 245 raises. -/
def scMalformed : Scenario where
  manga_url := "M"
  fetch := fun u =>
    if u = "M" then some "S"
    else if u = urljoin base_address "c1" then some "H1"
    else none
  chapter_links := fun h => if h = "S" then ["c1"] else []
  page_count := fun _ => PageCountOutcome.malformed

/-- A concrete discovery scenario in which the first chapter's page fetch
always fails while the second chapter succeeds with 3 pages. -/
def scSkip : Scenario where
  manga_url := "M"
  fetch := fun u =>
    if u = "M" then some "S"
    else if u = urljoin base_address "c2" then some "H2"
    else none
  chapter_links := fun h => if h = "S" then ["c1", "c2"] else []
  page_count := fun h =>
    if h = "H2" then PageCountOutcome.found 3 else PageCountOutcome.absent

/-! ## Helper lemmas about the dict model -/

theorem dictLookup_insert (k k2 : Nat) (v : α) (l : List (Nat × α)) :
    dictLookup k (dictInsert k2 v l) = if k = k2 then some v else dictLookup k l := by
  induction l with
  | nil => simp [dictInsert, dictLookup]
  | cons hd t ih =>
    obtain ⟨k3, v3⟩ := hd
    by_cases h23 : k2 = k3
    · subst h23
      simp only [dictInsert, if_pos rfl, dictLookup]
      by_cases hk : k = k2 <;> simp [hk]
    · simp only [dictInsert, if_neg h23, dictLookup]
      by_cases hk3 : k = k3
      · subst hk3
        have : ¬ k = k2 := fun h => h23 (h ▸ rfl)
        simp [this]
      · simp [hk3, ih]

theorem dictLookup_insert_self (k : Nat) (v : α) (l : List (Nat × α)) :
    dictLookup k (dictInsert k v l) = some v := by
  simp [dictLookup_insert]

theorem dictLookup_update_isSome (k : Nat) (upd : List (Nat × α)) :
    ∀ old : List (Nat × α), (dictLookup k old).isSome = true →
      (dictLookup k (dictUpdate old upd)).isSome = true := by
  induction upd with
  | nil => intro old h; simpa [dictUpdate] using h
  | cons hd t ih =>
    intro old h
    have : dictUpdate old (hd :: t) = dictUpdate (dictInsert hd.1 hd.2 old) t := rfl
    rw [this]
    apply ih
    rw [dictLookup_insert]
    by_cases hk : k = hd.1 <;> simp [hk, h]

theorem mem_dictInsert (k : Nat) (v : α) :
    ∀ (l : List (Nat × α)), ∀ e ∈ dictInsert k v l, e = (k, v) ∨ e ∈ l
  | [], e, he => by
      simp [dictInsert] at he
      exact Or.inl he
  | (k2, v2) :: t, e, he => by
      by_cases hk : k = k2
      · simp only [dictInsert, if_pos hk] at he
        rcases List.mem_cons.mp he with h | h
        · exact Or.inl h
        · exact Or.inr (List.mem_cons_of_mem _ h)
      · simp only [dictInsert, if_neg hk] at he
        rcases List.mem_cons.mp he with h | h
        · exact Or.inr (h ▸ List.mem_cons_self _ _)
        · rcases mem_dictInsert k v t e h with h2 | h2
          · exact Or.inl h2
          · exact Or.inr (List.mem_cons_of_mem _ h2)

theorem dictLookup_mem (k : Nat) (v : α) :
    ∀ l : List (Nat × α), dictLookup k l = some v → (k, v) ∈ l
  | [], h => by simp [dictLookup] at h
  | (k2, v2) :: t, h => by
    by_cases hk : k = k2
    · subst hk
      rw [dictLookup, if_pos rfl] at h
      simp only [Option.some.injEq] at h
      subst h
      exact List.mem_cons_self _ _
    · rw [dictLookup, if_neg hk] at h
      exact List.mem_cons_of_mem _ (dictLookup_mem k v t h)

theorem dictInsert_append_of_not_mem (k : Nat) (v : α) (l : List (Nat × α))
    (h : ∀ e ∈ l, e.1 ≠ k) : dictInsert k v l = l ++ [(k, v)] := by
  induction l with
  | nil => rfl
  | cons hd t ih =>
    have hne : k ≠ hd.1 := fun hk => h hd (List.mem_cons_self _ _) hk.symm
    obtain ⟨k2, v2⟩ := hd
    simp only [dictInsert, if_neg hne, List.cons_append, List.cons.injEq, true_and]
    exact ih (fun e he => h e (List.mem_cons_of_mem _ he))

/-! ## Theorems for the claims -/

/-- Claim C1 (code bug): in `get_chapter` the skip-detection file name of
chapter 1 page 1 is `1-01.jpeg` (the documented convention), while the file a
page download actually writes is `001-1.jpeg`; the two never line up, so a
directory produced by a first fully successful pass (files `001-1.jpeg`,
`001-2.jpeg`) causes a second pass to schedule both pages again, whereas files
named by the skip convention are all skipped. -/
theorem c1_naming_bug :
    image_name_skip 1 1 = "1-01.jpeg" ∧
    image_name_write 1 1 = "001-1.jpeg" ∧
    image_name_skip 1 1 ≠ image_name_write 1 1 ∧
    pagesToFetch (fun f => (firstPassFiles 1 2).contains f) 1 2 = [1, 2] ∧
    pagesToFetch (fun f => ((List.range' 1 2).map (image_name_skip 1)).contains f) 1 2 = [] := by
  refine ⟨by decide, by decide, by decide, by decide, by decide⟩

/-- Claim C2 (code bug): the boundary test of `get_chapter_page` (line 353) is
the Python chained comparison `0 >= page_num > chapter_pages_count`, i.e. a
conjunction that is unsatisfiable for a non-negative page count, so no call is
ever rejected as page-unavailable; in particular `page_num = 0` on a chapter
with 5 pages slips through the check and a fetch of `u/0` is attempted. -/
theorem c2_bounds_check_dead :
    (∀ (index : Index) (chapter_num : Nat) (page_num : Int),
      get_chapter_page_action index chapter_num page_num ≠ PageAction.pageUnavailable) ∧
    get_chapter_page_action [(1, ("u", 5))] 1 0 = PageAction.fetchPage "u/0" := by
  constructor
  · intro index chapter_num page_num
    unfold get_chapter_page_action
    cases h : dictLookup chapter_num index with
    | none => simp
    | some v =>
      obtain ⟨url, cnt⟩ := v
      by_cases hu : url = ""
      · simp [hu]
      · have hcond : ¬ (0 ≥ page_num ∧ page_num > (cnt : Int)) := by
          rintro ⟨h1, h2⟩
          have h0 : (0 : Int) ≤ (cnt : Int) := Int.ofNat_nonneg cnt
          omega
        simp [hu, hcond]
  · decide

/-- Claim C3 (counterexample): with a retry budget of 0 and a transport that
answers 404 with body `"err"`, every attempt fails, yet `get_page_source`
returns `(false, some "err")`, not `(false, None)` — the body read at line 185
is returned through line 219 even though the status is a failure. -/
theorem c3_counterexample :
    get_page_source (fun _ => Attempt.resp 404 "err") 0 0 = (1, false, some "err") ∧
    (some "err" : Option String) ≠ none := by
  refine ⟨by decide, by decide⟩

/-- Claim C3 as amended: if every attempt by the backing transport fails
(non-200 status or a raised exception), `get_page_source` with retry budget
`r` makes exactly `r + 1` attempts, never raises (the embedding is a total
function and every exception branch is caught in the source), and returns a
failure status; the returned body is `none` when the final attempt raised, and
the final attempt's (non-200) response body otherwise. -/
theorem c3_retry_exhaustion :
    ∀ (tr : Nat → Attempt) (i r : Nat), (∀ n, attemptOk (tr n) = false) →
      (get_page_source tr i r).1 = r + 1 ∧
      (get_page_source tr i r).2.1 = false ∧
      (get_page_source tr i r).2.2 =
        (match tr (i + r) with
         | Attempt.exc => none
         | Attempt.resp _ b => some b) := by
  intro tr i r h
  induction r generalizing i with
  | zero =>
    cases htr : tr i with
    | exc => simp [get_page_source, htr]
    | resp c body =>
      have hfail := h i
      rw [htr] at hfail
      have hc : ¬ c = 200 := by
        intro hc
        subst hc
        simp [attemptOk] at hfail
      simp [get_page_source, htr, hc]
  | succ r ih =>
    have harith : i + 1 + r = i + (r + 1) := by omega
    obtain ⟨h1, h2, h3⟩ := ih (i + 1)
    rw [harith] at h3
    cases htr : tr i with
    | exc =>
      refine ⟨?_, ?_, ?_⟩ <;> simp [get_page_source, htr, h1, h2, h3]
    | resp c body =>
      have hfail := h i
      rw [htr] at hfail
      have hc : ¬ c = 200 := by
        intro hc
        subst hc
        simp [attemptOk] at hfail
      refine ⟨?_, ?_, ?_⟩ <;> simp [get_page_source, htr, hc, h1, h2, h3]

/-- Witness for C3 as amended: a transport that always raises, retry budget 2:
exactly 3 attempts, failure status, body `none`. -/
theorem c3_witness :
    (get_page_source (fun _ => Attempt.exc) 0 2).1 = 3 ∧
    (get_page_source (fun _ => Attempt.exc) 0 2).2.1 = false ∧
    (get_page_source (fun _ => Attempt.exc) 0 2).2.2 = none := by
  have h := c3_retry_exhaustion (fun _ => Attempt.exc) 0 2 (fun _ => rfl)
  exact ⟨h.1, h.2.1, h.2.2⟩

theorem validTrace_start_le (wait_time : Nat) :
    ∀ (es : List FetchEvent) (next : Nat), validTrace wait_time next es = true →
      ∀ (j : Nat) (hj : j < es.length), next ≤ (es.get ⟨j, hj⟩).start := by
  intro es
  induction es with
  | nil =>
    intro next _ j hj
    exact absurd hj (by simp)
  | cons e rest ih =>
    intro next h j hj
    simp only [validTrace, Bool.and_eq_true, decide_eq_true_eq] at h
    obtain ⟨⟨h1, h2⟩, h3⟩ := h
    cases j with
    | zero => exact h1
    | succ j2 =>
      have hj2 : j2 < rest.length := by simpa using hj
      have hnext : next ≤ nextAfter wait_time next e := by
        unfold nextAfter
        split <;> omega
      exact le_trans hnext (ih (nextAfter wait_time next e) h3 j2 hj2)

/-- Claim C4: in any request trace the fetcher can produce with wait interval
`wait_time` (each request initiated no earlier than the next-allowed time,
which each completed request advances to its completion time plus
`wait_time`), any request after a completed one is initiated at least
`wait_time` after that completion; in particular two consecutive successful
fetches are never initiated less than `wait_time` apart, measured from request
completion to next request start. -/
theorem c4_pacing :
    ∀ (wait_time next : Nat) (es : List FetchEvent),
      validTrace wait_time next es = true →
      ∀ (i j : Nat) (hi : i < es.length) (hj : j < es.length), i < j →
        (es.get ⟨i, hi⟩).completed = true →
        (es.get ⟨i, hi⟩).finish + wait_time ≤ (es.get ⟨j, hj⟩).start := by
  intro wait_time next es
  induction es generalizing next with
  | nil =>
    intro _ i j hi
    exact absurd hi (by simp)
  | cons e rest ih =>
    intro h i j hi hj hij hc
    simp only [validTrace, Bool.and_eq_true, decide_eq_true_eq] at h
    obtain ⟨⟨h1, h2⟩, h3⟩ := h
    cases i with
    | zero =>
      cases j with
      | zero => exact absurd hij (by omega)
      | succ j2 =>
        have hj2 : j2 < rest.length := by simpa using hj
        have hc2 : e.completed = true := hc
        unfold nextAfter at h3
        rw [if_pos hc2] at h3
        exact validTrace_start_le wait_time rest (e.finish + wait_time) h3 j2 hj2
    | succ i2 =>
      cases j with
      | zero => exact absurd hij (by omega)
      | succ j2 =>
        have hi2 : i2 < rest.length := by simpa using hi
        have hj2 : j2 < rest.length := by simpa using hj
        exact ih (nextAfter wait_time next e) h3 i2 j2 hi2 hj2 (by omega) hc

/-- Witness for C4: the concrete trace `c4_trace` (wait interval 5, two
completed requests at times 0-1 and 6-7) is a valid fetcher trace, and the
pacing theorem applied to it gives `1 + 5 ≤ 6`. -/
theorem c4_witness :
    validTrace 5 0 c4_trace = true ∧
    (c4_trace.get ⟨0, by decide⟩).finish + 5 ≤ (c4_trace.get ⟨1, by decide⟩).start := by
  refine ⟨by decide, ?_⟩
  exact c4_pacing 5 0 c4_trace (by decide) 0 1 (by decide) (by decide) (by decide) (by decide)

/-- Claim C6: persisting then reloading the chapter index merges by union with
new values winning — saving `{1: (urlA,5)}` into an empty store, then saving
`{2: (urlB,3)}`, then loading, yields exactly `{1:(urlA,5), 2:(urlB,3)}`; and
any key already persisted is still present after any later save. -/
theorem c6_index_merge :
    load_chapter_list
        (save_chapter_list (save_chapter_list none [(1, ("urlA", 5))]) [(2, ("urlB", 3))]) =
      some [(1, ("urlA", 5)), (2, ("urlB", 3))] ∧
    (∀ (old upd : Index) (k : Nat),
      (dictLookup k old).isSome = true →
      (dictLookup k ((save_chapter_list (some old) upd).getD [])).isSome = true) := by
  constructor
  · decide
  · intro old upd k h
    simpa [save_chapter_list] using dictLookup_update_isSome k upd old h

/-- Witness for C6: applies the preservation half of `c6_index_merge` at the
concrete store `{1: ("a",1)}` and update `{2: ("b",2)}`. -/
theorem c6_witness :
    (dictLookup 1 [(1, ("a", 1))] : Option (String × Nat)).isSome = true ∧
    (dictLookup 1 ((save_chapter_list (some [(1, ("a", 1))]) [(2, ("b", 2))]).getD [])).isSome
      = true :=
  ⟨by decide, c6_index_merge.2 [(1, ("a", 1))] [(2, ("b", 2))] 1 (by decide)⟩

/-- Claim C8 (code bug): `get_chapter` descends with `os.chdir("CH-001")` and
then runs `os.chdir(self._target_dir)`; when the target directory was given
relatively (the default is `.`), that final chdir resolves against the chapter
directory and the working directory is not restored — starting from
`/home/manga` with `target_dir = "."`, the call ends in `/home/manga/CH-001`.
With an absolute target directory the working directory is restored. -/
theorem c8_cwd_not_restored :
    get_chapter_cwd ["home", "manga"] "." 1 = ["home", "manga", "CH-001"] ∧
    ["home", "manga", "CH-001"] ≠ ["home", "manga"] ∧
    get_chapter_cwd ["d", "manga"] "/d/manga" 1 = ["d", "manga"] := by
  refine ⟨by decide, by decide, by decide⟩

/-- Claim C10: non-positive tuning parameters are replaced by defaults at
construction time — `retries <= 0` becomes 3, `wait_time <= 0` becomes 5,
`retry_after <= 0` becomes 10, positive values are kept, and all three stored
values are always strictly positive. -/
theorem c10_defaults :
    ∀ retries wait_time retry_after : Int,
      0 < init_retry_count retries ∧ 0 < init_wait_time wait_time ∧
      0 < init_retry_after retry_after ∧
      (retries ≤ 0 → init_retry_count retries = 3) ∧
      (wait_time ≤ 0 → init_wait_time wait_time = 5) ∧
      (retry_after ≤ 0 → init_retry_after retry_after = 10) ∧
      (0 < retries → init_retry_count retries = retries) ∧
      (0 < wait_time → init_wait_time wait_time = wait_time) ∧
      (0 < retry_after → init_retry_after retry_after = retry_after) := by
  intro retries wait_time retry_after
  unfold init_retry_count init_wait_time init_retry_after
  refine ⟨?_, ?_, ?_, ?_, ?_, ?_, ?_, ?_, ?_⟩ <;> (try split) <;> omega

/-! ### Step equations for `chapterLoop` and `get_chapter_list` -/

theorem chapterLoop_nil (sc : Scenario) (recurse : Index → Index × Option PyErr)
    (r num : Nat) (st : Index) : chapterLoop sc recurse r num [] st = (st, none) := rfl

theorem chapterLoop_cons_found (sc : Scenario) (recurse : Index → Index × Option PyErr)
    (r num : Nat) (l : String) (rest : List String) (st : Index) (html : String) (cnt : Nat)
    (hf : sc.fetch (urljoin base_address l) = some html)
    (hc : sc.page_count html = PageCountOutcome.found cnt) :
    chapterLoop sc recurse r num (l :: rest) st =
      chapterLoop sc recurse r (num + 1) rest
        (dictInsert num (urljoin base_address l, cnt) st) := by
  simp only [chapterLoop, hf, hc]

theorem chapterLoop_cons_missing (sc : Scenario) (recurse : Index → Index × Option PyErr)
    (r num : Nat) (l : String) (rest : List String) (st : Index) (html : String)
    (hf : sc.fetch (urljoin base_address l) = some html)
    (hc : sc.page_count html = PageCountOutcome.absent) :
    chapterLoop sc recurse r num (l :: rest) st =
      (dictInsert num (urljoin base_address l, 0) st, some (PyErr.discoveryError num)) := by
  simp only [chapterLoop, hf, hc]

theorem chapterLoop_cons_malformed (sc : Scenario) (recurse : Index → Index × Option PyErr)
    (r num : Nat) (l : String) (rest : List String) (st : Index) (html : String)
    (hf : sc.fetch (urljoin base_address l) = some html)
    (hc : sc.page_count html = PageCountOutcome.malformed) :
    chapterLoop sc recurse r num (l :: rest) st = (st, some (PyErr.parseError num)) := by
  simp only [chapterLoop, hf, hc]

theorem chapterLoop_cons_fail_abort (sc : Scenario) (recurse : Index → Index × Option PyErr)
    (r num : Nat) (l : String) (rest : List String) (st st2 : Index) (e : PyErr)
    (hf : sc.fetch (urljoin base_address l) = none) (hr : 0 < r)
    (hrc : recurse st = (st2, some e)) :
    chapterLoop sc recurse r num (l :: rest) st = (st2, some e) := by
  simp only [chapterLoop, hf, if_pos hr, hrc]

theorem chapterLoop_cons_fail_cont (sc : Scenario) (recurse : Index → Index × Option PyErr)
    (r num : Nat) (l : String) (rest : List String) (st st2 : Index)
    (hf : sc.fetch (urljoin base_address l) = none) (hr : 0 < r)
    (hrc : recurse st = (st2, none)) :
    chapterLoop sc recurse r num (l :: rest) st =
      chapterLoop sc recurse r (num + 1) rest st2 := by
  simp only [chapterLoop, hf, if_pos hr, hrc]

theorem chapterLoop_cons_fail_exhausted (sc : Scenario)
    (recurse : Index → Index × Option PyErr) (r num : Nat) (l : String) (rest : List String)
    (st : Index) (hf : sc.fetch (urljoin base_address l) = none) (hr : ¬ 0 < r) :
    chapterLoop sc recurse r num (l :: rest) st =
      chapterLoop sc recurse r (num + 1) rest st := by
  simp only [chapterLoop, hf, if_neg hr]

theorem get_chapter_list_zero_none (sc : Scenario) (st : Index)
    (hf : sc.fetch sc.manga_url = none) : get_chapter_list sc 0 st = (st, none) := by
  simp only [get_chapter_list, hf]

theorem get_chapter_list_succ_none (sc : Scenario) (r : Nat) (st : Index)
    (hf : sc.fetch sc.manga_url = none) :
    get_chapter_list sc (r + 1) st = get_chapter_list sc r st := by
  simp only [get_chapter_list, hf]

theorem get_chapter_list_zero_nil (sc : Scenario) (st : Index) (html : String)
    (hf : sc.fetch sc.manga_url = some html) (hl : sc.chapter_links html = []) :
    get_chapter_list sc 0 st = (st, none) := by
  simp only [get_chapter_list, hf, if_pos hl]

theorem get_chapter_list_succ_nil (sc : Scenario) (r : Nat) (st : Index) (html : String)
    (hf : sc.fetch sc.manga_url = some html) (hl : sc.chapter_links html = []) :
    get_chapter_list sc (r + 1) st = (st, none) := by
  simp only [get_chapter_list, hf, if_pos hl]

theorem get_chapter_list_zero_go (sc : Scenario) (st : Index) (html : String)
    (hf : sc.fetch sc.manga_url = some html) (hl : ¬ sc.chapter_links html = []) :
    get_chapter_list sc 0 st =
      chapterLoop sc (fun s => (s, none)) 0 1 (sc.chapter_links html) st := by
  simp only [get_chapter_list, hf, if_neg hl]

theorem get_chapter_list_succ_go (sc : Scenario) (r : Nat) (st : Index) (html : String)
    (hf : sc.fetch sc.manga_url = some html) (hl : ¬ sc.chapter_links html = []) :
    get_chapter_list sc (r + 1) st =
      chapterLoop sc (fun s => get_chapter_list sc r s) (r + 1) 1
        (sc.chapter_links html) st := by
  simp only [get_chapter_list, hf, if_neg hl]

/-! ### Positional invariant of recorded entries (claim C7) -/

theorem chapterLoop_entryOk (sc : Scenario) (recurse : Index → Index × Option PyErr) (r : Nat)
    (hrec : ∀ s, (∀ e2 ∈ s, EntryOk sc e2) → ∀ e2 ∈ (recurse s).1, EntryOk sc e2) :
    ∀ (links : List String) (num : Nat) (st : Index),
      1 ≤ num → (seriesLinks sc).drop (num - 1) = links →
      (∀ e2 ∈ st, EntryOk sc e2) →
      ∀ e2 ∈ (chapterLoop sc recurse r num links st).1, EntryOk sc e2 := by
  intro links
  induction links with
  | nil =>
    intro num st _ _ hst
    rw [chapterLoop_nil]
    exact hst
  | cons l rest ih =>
    intro num st hnum hdrop hst
    have hget : (seriesLinks sc).get? (num - 1) = some l := by
      have h0 : ((seriesLinks sc).drop (num - 1)).get? 0 = some l := by rw [hdrop]; rfl
      rwa [List.get?_drop, Nat.add_zero] at h0
    have hrest : (seriesLinks sc).drop (num + 1 - 1) = rest := by
      have h1 : ((seriesLinks sc).drop (num - 1)).drop 1 = rest := by rw [hdrop]; rfl
      rw [List.drop_drop] at h1
      have h2 : num - 1 + 1 = num + 1 - 1 := by omega
      rwa [h2] at h1
    have hins : ∀ cnt : Nat,
        ∀ e2 ∈ dictInsert num (urljoin base_address l, cnt) st, EntryOk sc e2 := by
      intro cnt e2 he2
      rcases mem_dictInsert num (urljoin base_address l, cnt) st e2 he2 with h | h
      · subst h
        exact ⟨hnum, l, hget, rfl⟩
      · exact hst e2 h
    cases hf : sc.fetch (urljoin base_address l) with
    | some html =>
      cases hc : sc.page_count html with
      | found cnt =>
        rw [chapterLoop_cons_found sc recurse r num l rest st html cnt hf hc]
        exact ih (num + 1) _ (by omega) hrest (hins cnt)
      | absent =>
        rw [chapterLoop_cons_missing sc recurse r num l rest st html hf hc]
        exact hins 0
      | malformed =>
        rw [chapterLoop_cons_malformed sc recurse r num l rest st html hf hc]
        exact hst
    | none =>
      by_cases hr : 0 < r
      · rcases hrc : recurse st with ⟨st2, oe⟩
        have hst2 : ∀ e2 ∈ st2, EntryOk sc e2 := by
          have h3 := hrec st hst
          rwa [hrc] at h3
        cases oe with
        | some e =>
          rw [chapterLoop_cons_fail_abort sc recurse r num l rest st st2 e hf hr hrc]
          exact hst2
        | none =>
          rw [chapterLoop_cons_fail_cont sc recurse r num l rest st st2 hf hr hrc]
          exact ih (num + 1) st2 (by omega) hrest hst2
      · rw [chapterLoop_cons_fail_exhausted sc recurse r num l rest st hf hr]
        exact ih (num + 1) st (by omega) hrest hst

theorem get_chapter_list_entryOk (sc : Scenario) :
    ∀ (r : Nat) (st : Index), (∀ e2 ∈ st, EntryOk sc e2) →
      ∀ e2 ∈ (get_chapter_list sc r st).1, EntryOk sc e2 := by
  intro r
  induction r with
  | zero =>
    intro st hst
    cases hf : sc.fetch sc.manga_url with
    | none =>
      rw [get_chapter_list_zero_none sc st hf]
      exact hst
    | some html =>
      by_cases hl : sc.chapter_links html = []
      · rw [get_chapter_list_zero_nil sc st html hf hl]
        exact hst
      · rw [get_chapter_list_zero_go sc st html hf hl]
        refine chapterLoop_entryOk sc _ 0 (fun s hs => hs) (sc.chapter_links html) 1 st
          le_rfl ?_ hst
        simp [seriesLinks, hf]
  | succ r ih =>
    intro st hst
    cases hf : sc.fetch sc.manga_url with
    | none =>
      rw [get_chapter_list_succ_none sc r st hf]
      exact ih st hst
    | some html =>
      by_cases hl : sc.chapter_links html = []
      · rw [get_chapter_list_succ_nil sc r st html hf hl]
        exact hst
      · rw [get_chapter_list_succ_go sc r st html hf hl]
        refine chapterLoop_entryOk sc _ (r + 1) (fun s hs => ih s hs)
          (sc.chapter_links html) 1 st le_rfl ?_ hst
        simp [seriesLinks, hf]

theorem chapterLoop_dense (sc : Scenario) (recurse : Index → Index × Option PyErr) (r : Nat) :
    ∀ (links : List String) (num : Nat) (st : Index),
      (∀ link ∈ links, ∃ html cnt,
        sc.fetch (urljoin base_address link) = some html ∧
          sc.page_count html = PageCountOutcome.found cnt) →
      (∀ e2 ∈ st, e2.1 < num) →
      (chapterLoop sc recurse r num links st).1.map Prod.fst =
        st.map Prod.fst ++ List.range' num links.length := by
  intro links
  induction links with
  | nil =>
    intro num st _ _
    rw [chapterLoop_nil]
    simp
  | cons l rest ih =>
    intro num st hsucc hkeys
    obtain ⟨html, cnt, hf, hc⟩ := hsucc l (List.mem_cons_self _ _)
    have hins : dictInsert num (urljoin base_address l, cnt) st =
        st ++ [(num, (urljoin base_address l, cnt))] := by
      refine dictInsert_append_of_not_mem num _ st (fun e2 he2 => ?_)
      have := hkeys e2 he2
      omega
    have hkeys2 : ∀ e2 ∈ st ++ [(num, (urljoin base_address l, cnt))], e2.1 < num + 1 := by
      intro e2 he2
      rcases List.mem_append.mp he2 with h | h
      · have := hkeys e2 h
        omega
      · simp at h
        subst h
        omega
    rw [chapterLoop_cons_found sc recurse r num l rest st html cnt hf hc, hins,
      ih (num + 1) _ (fun link hl => hsucc link (List.mem_cons_of_mem _ hl)) hkeys2]
    simp only [List.map_append, List.map_cons, List.map_nil, List.length_cons]
    rw [List.range'_succ]
    simp

theorem get_chapter_list_dense (sc : Scenario) (r : Nat) (h : AllSuccess sc) :
    (get_chapter_list sc r []).1.map Prod.fst = List.range' 1 (seriesLinks sc).length := by
  obtain ⟨hser, hlinks⟩ := h
  rw [Option.isSome_iff_exists] at hser
  obtain ⟨html, hf⟩ := hser
  have hsl : seriesLinks sc = sc.chapter_links html := by simp [seriesLinks, hf]
  have hsucc : ∀ link ∈ sc.chapter_links html, ∃ h2 cnt,
      sc.fetch (urljoin base_address link) = some h2 ∧
        sc.page_count h2 = PageCountOutcome.found cnt := by
    intro link hl
    exact hlinks link (hsl ▸ hl)
  by_cases hl : sc.chapter_links html = []
  · cases r with
    | zero =>
      rw [get_chapter_list_zero_nil sc [] html hf hl]
      simp [hsl, hl]
    | succ r2 =>
      rw [get_chapter_list_succ_nil sc r2 [] html hf hl]
      simp [hsl, hl]
  · cases r with
    | zero =>
      rw [get_chapter_list_zero_go sc [] html hf hl,
        chapterLoop_dense sc _ 0 (sc.chapter_links html) 1 [] hsucc (by simp)]
      simp [hsl]
    | succ r2 =>
      rw [get_chapter_list_succ_go sc r2 [] html hf hl,
        chapterLoop_dense sc _ (r2 + 1) (sc.chapter_links html) 1 [] hsucc (by simp)]
      simp [hsl]

/-- Claim C7 (counterexample): with the first chapter's page fetch failing and
the retry budget exhausted (`scSkip`, budget 0), discovery records only
chapter 2 — the resulting key list `[2]` is not `1..k` for any `k`, refuting
the density part of the ChapterIndex invariant. -/
theorem c7_counterexample :
    (get_chapter_list scSkip 0 []).1.map Prod.fst = [2] ∧
    ¬ ∃ k, (get_chapter_list scSkip 0 []).1.map Prod.fst = List.range' 1 k := by
  have hmap : (get_chapter_list scSkip 0 []).1.map Prod.fst = [2] := by decide
  refine ⟨hmap, ?_⟩
  rintro ⟨k, hk⟩
  rw [hmap] at hk
  have hlen : (1 : Nat) = (List.range' 1 k).length := by
    rw [← hk]
    rfl
  simp only [List.length_range'] at hlen
  subst hlen
  simp [List.range'] at hk

/-- Claim C7 as amended: after any discovery run started from an empty index,
every recorded entry's chapter number is a 1-based position among the
discovered links and its URL is the one joined from the link at exactly that
position (so a chapter's URL is a function of its discovery position and is
never changed by later operations of the same run, the transport being
modelled as deterministic); and when every fetch and page-count extraction of
the run succeeds, the keys are exactly `1..k` (dense from 1, unique, in
discovery order), with `k` the number of discovered links.  Keys need not be
dense when a chapter-page fetch fails with the retry budget exhausted
(`c7_counterexample`). -/
theorem c7_chapter_index :
    ∀ (sc : Scenario) (r : Nat),
      (∀ e2 ∈ (get_chapter_list sc r []).1, EntryOk sc e2) ∧
      (AllSuccess sc →
        (get_chapter_list sc r []).1.map Prod.fst = List.range' 1 (seriesLinks sc).length) :=
  fun sc r =>
    ⟨get_chapter_list_entryOk sc r [] (by simp),
     fun h => get_chapter_list_dense sc r h⟩

/-- Witness for C7 as amended: in the all-success scenario `scOk` the index
keys after discovery are exactly `1..2`. -/
theorem c7_witness :
    (get_chapter_list scOk 3 []).1.map Prod.fst = List.range' 1 (seriesLinks scOk).length := by
  refine (c7_chapter_index scOk 3).2 ⟨by decide, ?_⟩
  intro link hl
  have hl2 : link = "c1" ∨ link = "c2" := by
    have hsl : seriesLinks scOk = ["c1", "c2"] := by decide
    rw [hsl] at hl
    simpa using hl
  rcases hl2 with h | h
  · subst h
    exact ⟨"H1", 3, by decide, by decide⟩
  · subst h
    exact ⟨"H2", 2, by decide, by decide⟩

/-! ### Exception propagation out of discovery (claim C5) -/

theorem chapterLoop_notMalformed (sc : Scenario) (recurse : Index → Index × Option PyErr)
    (r : Nat)
    (hrec : ∀ s, (∀ e2 ∈ s, NotMalformedAt sc e2.1) →
      ∀ e2 ∈ (recurse s).1, NotMalformedAt sc e2.1) :
    ∀ (links : List String) (num : Nat) (st : Index),
      1 ≤ num → (seriesLinks sc).drop (num - 1) = links →
      (∀ e2 ∈ st, NotMalformedAt sc e2.1) →
      ∀ e2 ∈ (chapterLoop sc recurse r num links st).1, NotMalformedAt sc e2.1 := by
  intro links
  induction links with
  | nil =>
    intro num st _ _ hst
    rw [chapterLoop_nil]
    exact hst
  | cons l rest ih =>
    intro num st hnum hdrop hst
    have hget : (seriesLinks sc).get? (num - 1) = some l := by
      have h0 : ((seriesLinks sc).drop (num - 1)).get? 0 = some l := by rw [hdrop]; rfl
      rwa [List.get?_drop, Nat.add_zero] at h0
    have hrest : (seriesLinks sc).drop (num + 1 - 1) = rest := by
      have h1 : ((seriesLinks sc).drop (num - 1)).drop 1 = rest := by rw [hdrop]; rfl
      rw [List.drop_drop] at h1
      have h2 : num - 1 + 1 = num + 1 - 1 := by omega
      rwa [h2] at h1
    cases hf : sc.fetch (urljoin base_address l) with
    | some html =>
      have hins : ∀ cnt : Nat, sc.page_count html ≠ PageCountOutcome.malformed →
          ∀ e2 ∈ dictInsert num (urljoin base_address l, cnt) st,
            NotMalformedAt sc e2.1 := by
        intro cnt hok e2 he2
        rcases mem_dictInsert num (urljoin base_address l, cnt) st e2 he2 with h | h
        · subst h
          intro link2 html2 hget2 hf2
          rw [hget] at hget2
          cases hget2
          rw [hf] at hf2
          cases hf2
          exact hok
        · exact hst e2 h
      cases hc : sc.page_count html with
      | found cnt =>
        rw [chapterLoop_cons_found sc recurse r num l rest st html cnt hf hc]
        exact ih (num + 1) _ (by omega) hrest (hins cnt (by rw [hc]; simp))
      | absent =>
        rw [chapterLoop_cons_missing sc recurse r num l rest st html hf hc]
        exact hins 0 (by rw [hc]; simp)
      | malformed =>
        rw [chapterLoop_cons_malformed sc recurse r num l rest st html hf hc]
        exact hst
    | none =>
      by_cases hr : 0 < r
      · rcases hrc : recurse st with ⟨st2, oe⟩
        have hst2 : ∀ e2 ∈ st2, NotMalformedAt sc e2.1 := by
          have h3 := hrec st hst
          rwa [hrc] at h3
        cases oe with
        | some e =>
          rw [chapterLoop_cons_fail_abort sc recurse r num l rest st st2 e hf hr hrc]
          exact hst2
        | none =>
          rw [chapterLoop_cons_fail_cont sc recurse r num l rest st st2 hf hr hrc]
          exact ih (num + 1) st2 (by omega) hrest hst2
      · rw [chapterLoop_cons_fail_exhausted sc recurse r num l rest st hf hr]
        exact ih (num + 1) st (by omega) hrest hst

theorem get_chapter_list_notMalformed (sc : Scenario) :
    ∀ (r : Nat) (st : Index), (∀ e2 ∈ st, NotMalformedAt sc e2.1) →
      ∀ e2 ∈ (get_chapter_list sc r st).1, NotMalformedAt sc e2.1 := by
  intro r
  induction r with
  | zero =>
    intro st hst
    cases hf : sc.fetch sc.manga_url with
    | none =>
      rw [get_chapter_list_zero_none sc st hf]
      exact hst
    | some html =>
      by_cases hl : sc.chapter_links html = []
      · rw [get_chapter_list_zero_nil sc st html hf hl]
        exact hst
      · rw [get_chapter_list_zero_go sc st html hf hl]
        refine chapterLoop_notMalformed sc _ 0 (fun s hs => hs) (sc.chapter_links html) 1 st
          le_rfl ?_ hst
        simp [seriesLinks, hf]
  | succ r ih =>
    intro st hst
    cases hf : sc.fetch sc.manga_url with
    | none =>
      rw [get_chapter_list_succ_none sc r st hf]
      exact ih st hst
    | some html =>
      by_cases hl : sc.chapter_links html = []
      · rw [get_chapter_list_succ_nil sc r st html hf hl]
        exact hst
      · rw [get_chapter_list_succ_go sc r st html hf hl]
        refine chapterLoop_notMalformed sc _ (r + 1) (fun s hs => ih s hs)
          (sc.chapter_links html) 1 st le_rfl ?_ hst
        simp [seriesLinks, hf]

theorem chapterLoop_err (sc : Scenario) (recurse : Index → Index × Option PyErr) (r : Nat)
    (hrec_inv : ∀ s, (∀ e2 ∈ s, NotMalformedAt sc e2.1) →
      ∀ e2 ∈ (recurse s).1, NotMalformedAt sc e2.1)
    (hrec_err : ∀ s e, (∀ e2 ∈ s, NotMalformedAt sc e2.1) → (recurse s).2 = some e →
      (∃ n url, e = PyErr.discoveryError n ∧
        dictLookup n (recurse s).1 = some (url, 0)) ∨
      (∃ n, e = PyErr.parseError n ∧ dictLookup n (recurse s).1 = none)) :
    ∀ (links : List String) (num : Nat) (st : Index) (e : PyErr),
      1 ≤ num → (seriesLinks sc).drop (num - 1) = links →
      (∀ e2 ∈ st, NotMalformedAt sc e2.1) →
      (chapterLoop sc recurse r num links st).2 = some e →
      (∃ n url, e = PyErr.discoveryError n ∧
        dictLookup n (chapterLoop sc recurse r num links st).1 = some (url, 0)) ∨
      (∃ n, e = PyErr.parseError n ∧
        dictLookup n (chapterLoop sc recurse r num links st).1 = none) := by
  intro links
  induction links with
  | nil =>
    intro num st e _ _ _ he
    rw [chapterLoop_nil] at he
    simp at he
  | cons l rest ih =>
    intro num st e hnum hdrop hst he
    have hget : (seriesLinks sc).get? (num - 1) = some l := by
      have h0 : ((seriesLinks sc).drop (num - 1)).get? 0 = some l := by rw [hdrop]; rfl
      rwa [List.get?_drop, Nat.add_zero] at h0
    have hrest : (seriesLinks sc).drop (num + 1 - 1) = rest := by
      have h1 : ((seriesLinks sc).drop (num - 1)).drop 1 = rest := by rw [hdrop]; rfl
      rw [List.drop_drop] at h1
      have h2 : num - 1 + 1 = num + 1 - 1 := by omega
      rwa [h2] at h1
    cases hf : sc.fetch (urljoin base_address l) with
    | some html =>
      cases hc : sc.page_count html with
      | found cnt =>
        rw [chapterLoop_cons_found sc recurse r num l rest st html cnt hf hc] at he ⊢
        refine ih (num + 1) _ e (by omega) hrest ?_ he
        intro e2 he2
        rcases mem_dictInsert num (urljoin base_address l, cnt) st e2 he2 with h | h
        · subst h
          intro link2 html2 hget2 hf2
          rw [hget] at hget2
          cases hget2
          rw [hf] at hf2
          cases hf2
          rw [hc]
          simp
        · exact hst e2 h
      | absent =>
        rw [chapterLoop_cons_missing sc recurse r num l rest st html hf hc] at he ⊢
        have he2 : PyErr.discoveryError num = e := by simpa using he
        subst he2
        exact Or.inl ⟨num, urljoin base_address l, rfl, by simp [dictLookup_insert_self]⟩
      | malformed =>
        rw [chapterLoop_cons_malformed sc recurse r num l rest st html hf hc] at he ⊢
        have he2 : PyErr.parseError num = e := by simpa using he
        subst he2
        refine Or.inr ⟨num, rfl, ?_⟩
        cases hlk : dictLookup num st with
        | none => rfl
        | some v =>
          have hmem := dictLookup_mem num v st hlk
          have hnm := hst (num, v) hmem
          exact absurd hc (hnm l html hget hf)
    | none =>
      by_cases hr : 0 < r
      · rcases hrc : recurse st with ⟨st2, oe⟩
        cases oe with
        | some e2 =>
          rw [chapterLoop_cons_fail_abort sc recurse r num l rest st st2 e2 hf hr hrc]
            at he ⊢
          have he3 : e2 = e := by simpa using he
          subst he3
          have hd := hrec_err st e2 hst (by rw [hrc])
          rwa [hrc] at hd
        | none =>
          rw [chapterLoop_cons_fail_cont sc recurse r num l rest st st2 hf hr hrc] at he ⊢
          have hst2 : ∀ e2 ∈ st2, NotMalformedAt sc e2.1 := by
            have h3 := hrec_inv st hst
            rwa [hrc] at h3
          exact ih (num + 1) st2 e (by omega) hrest hst2 he
      · rw [chapterLoop_cons_fail_exhausted sc recurse r num l rest st hf hr] at he ⊢
        exact ih (num + 1) st e (by omega) hrest hst he

/-- Claim C5 (counterexample): in the concrete scenario `scMissing` (one
chapter link whose page lacks the page-count marker) discovery records the
sentinel entry and then the raise of line 251 propagates out of
`get_chapter_list` uncaught — discovery does crash, refuting both the
propagation policy and the "without crashing" part of the claim. -/
theorem c5_counterexample :
    (get_chapter_list scMissing 3 []).2 = some (PyErr.discoveryError 1) ∧
    dictLookup 1 (get_chapter_list scMissing 3 []).1 = some (urljoin base_address "c1", 0) := by
  refine ⟨by decide, by decide⟩

/-- Claim C5 as amended: besides the constructor-time validation failure (and
with the fetcher itself total — every transport exception is caught inside
`get_page_source`), the faults that can propagate uncaught out of a discovery
run are exactly two, both from `get_chapter_list`, which has no handler: the
discovery error raised at line 251 for a chapter whose page-count marker is
absent — in which case that chapter was first recorded in the index with the
sentinel page count 0 — and the `IndexError`/`ValueError` escaping the parse
`int(chapter_pages[0].text.strip().split()[-1])` at line 245 for a chapter
whose marker is present but unparsable — in which case no entry at all is
recorded for that chapter.  Stated for any run whose starting index contains
no entry at a malformed position (in particular the empty index every run
starts from). -/
theorem c5_propagation :
    ∀ (sc : Scenario) (r : Nat) (st : Index) (e : PyErr),
      (∀ e2 ∈ st, NotMalformedAt sc e2.1) →
      (get_chapter_list sc r st).2 = some e →
      (∃ n url, e = PyErr.discoveryError n ∧
        dictLookup n (get_chapter_list sc r st).1 = some (url, 0)) ∨
      (∃ n, e = PyErr.parseError n ∧
        dictLookup n (get_chapter_list sc r st).1 = none) := by
  intro sc r
  induction r with
  | zero =>
    intro st e hst he
    cases hf : sc.fetch sc.manga_url with
    | none =>
      rw [get_chapter_list_zero_none sc st hf] at he
      simp at he
    | some html =>
      by_cases hl : sc.chapter_links html = []
      · rw [get_chapter_list_zero_nil sc st html hf hl] at he
        simp at he
      · rw [get_chapter_list_zero_go sc st html hf hl] at he ⊢
        refine chapterLoop_err sc _ 0 (fun s hs => hs) ?_
          (sc.chapter_links html) 1 st e le_rfl ?_ hst he
        · intro s e2 _ h2
          simp at h2
        · simp [seriesLinks, hf]
  | succ r ih =>
    intro st e hst he
    cases hf : sc.fetch sc.manga_url with
    | none =>
      rw [get_chapter_list_succ_none sc r st hf] at he ⊢
      exact ih st e hst he
    | some html =>
      by_cases hl : sc.chapter_links html = []
      · rw [get_chapter_list_succ_nil sc r st html hf hl] at he
        simp at he
      · rw [get_chapter_list_succ_go sc r st html hf hl] at he ⊢
        refine chapterLoop_err sc _ (r + 1)
          (fun s hs => get_chapter_list_notMalformed sc r s hs)
          (fun s e2 hs h2 => ih s e2 hs h2)
          (sc.chapter_links html) 1 st e le_rfl ?_ hst he
        simp [seriesLinks, hf]

/-- Witness for C5 as amended: applies `c5_propagation`, starting from the
empty index, to the concrete scenario `scMalformed`, whose single chapter page
carries a present but unparsable page-count marker — the parse failure of
line 245 propagates and no entry is recorded for that chapter. -/
theorem c5_witness :
    (∃ n url, PyErr.parseError 1 = PyErr.discoveryError n ∧
      dictLookup n (get_chapter_list scMalformed 3 []).1 = some (url, 0)) ∨
    (∃ n, PyErr.parseError 1 = PyErr.parseError n ∧
      dictLookup n (get_chapter_list scMalformed 3 []).1 = none) :=
  c5_propagation scMalformed 3 [] (PyErr.parseError 1) (by simp) (by decide)

/-- Witness for C10: applies `c10_defaults` at `retries = -1`, `wait_time = 0`,
`retry_after = -2`, where every defaulting hypothesis is concrete. -/
theorem c10_witness :
    init_retry_count (-1) = 3 ∧ init_wait_time 0 = 5 ∧ init_retry_after (-2) = 10 ∧
    0 < init_retry_count (-1) :=
  ⟨(c10_defaults (-1) 0 (-2)).2.2.2.1 (by decide),
   (c10_defaults (-1) 0 (-2)).2.2.2.2.1 (by decide),
   (c10_defaults (-1) 0 (-2)).2.2.2.2.2.1 (by decide),
   (c10_defaults (-1) 0 (-2)).1⟩

/-! ### Structure of `splitSlash` (claim C9) -/

theorem splitSlash_ne_nil : ∀ l : List Char, splitSlash l ≠ []
  | [] => by simp [splitSlash]
  | c :: t => by
    by_cases hc : c = '/'
    · simp [splitSlash, hc]
    · simp only [splitSlash, if_neg hc]
      cases hsp : splitSlash t with
      | nil => simp
      | cons s ss => simp

theorem splitSlash_cons_slash (t : List Char) :
    splitSlash ('/' :: t) = [] :: splitSlash t := by
  simp [splitSlash]

theorem splitSlash_cons_ne (c : Char) (t : List Char) (hc : ¬ c = '/') :
    ∃ s ss, splitSlash t = s :: ss ∧ splitSlash (c :: t) = (c :: s) :: ss := by
  cases hsp : splitSlash t with
  | nil => exact absurd hsp (splitSlash_ne_nil t)
  | cons s ss => exact ⟨s, ss, rfl, by simp [splitSlash, hc, hsp]⟩

theorem length_splitSlash : ∀ l : List Char, (splitSlash l).length = l.count '/' + 1
  | [] => by simp [splitSlash]
  | c :: t => by
    by_cases hc : c = '/'
    · subst hc
      rw [splitSlash_cons_slash]
      simp [length_splitSlash t, List.count_cons]
    · obtain ⟨s, ss, hsp, hsp2⟩ := splitSlash_cons_ne c t hc
      have ht := length_splitSlash t
      rw [hsp] at ht
      rw [hsp2]
      simp only [List.length_cons] at ht ⊢
      rw [List.count_cons]
      simp [hc]
      omega

theorem splitSlash_of_not_mem : ∀ m : List Char, '/' ∉ m → splitSlash m = [m]
  | [], _ => rfl
  | c :: t, h => by
    have hc : ¬ c = '/' := fun h2 => h (by rw [h2]; exact List.mem_cons_self _ _)
    have ht := splitSlash_of_not_mem t (fun h2 => h (List.mem_cons_of_mem _ h2))
    simp [splitSlash, hc, ht]

theorem spec_segments_cons_slash (t : List Char) :
    spec_segments ('/' :: t) = spec_segments t := by
  rw [spec_segments, spec_segments, splitSlash_cons_slash, List.filter_cons]
  simp

theorem spec_segments_dropWhile (l : List Char) :
    spec_segments (l.dropWhile (fun c => c == '/')) = spec_segments l := by
  induction l with
  | nil => rfl
  | cons c t ih =>
    by_cases hc : c = '/'
    · subst hc
      rw [List.dropWhile_cons, if_pos (by simp), ih, spec_segments_cons_slash]
    · rw [List.dropWhile_cons, if_neg (by simp [hc])]

theorem splitSlash_append_slash : ∀ m : List Char,
    splitSlash (m ++ ['/']) = splitSlash m ++ [[]]
  | [] => by simp [splitSlash]
  | c :: m => by
    by_cases hc : c = '/'
    · subst hc
      rw [List.cons_append, splitSlash_cons_slash, splitSlash_cons_slash,
        splitSlash_append_slash m]
      rfl
    · obtain ⟨s, ss, hsp, hsp2⟩ := splitSlash_cons_ne c m hc
      have hrec := splitSlash_append_slash m
      rw [hsp] at hrec
      obtain ⟨s2, ss2, hsp3, hsp4⟩ := splitSlash_cons_ne c (m ++ ['/']) hc
      rw [List.cons_append, hsp4, hsp2]
      rw [hrec] at hsp3
      rw [List.cons_append] at hsp3
      cases hsp3
      rfl

theorem modLast_cons_of_ne_nil (f : List Char → List Char) (x : List Char)
    (rest : List (List Char)) (h : rest ≠ []) :
    modLast f (x :: rest) = x :: modLast f rest := by
  cases rest with
  | nil => exact absurd rfl h
  | cons y ys => rfl

theorem modLast_append_singleton (f : List Char → List Char) :
    ∀ (xs : List (List Char)) (a : List Char), modLast f (xs ++ [a]) = xs ++ [f a]
  | [], a => rfl
  | x :: xs, a => by
    rw [List.cons_append, modLast_cons_of_ne_nil f x (xs ++ [a]) (by simp),
      modLast_append_singleton f xs a, List.cons_append]

theorem splitSlash_append_char : ∀ (m : List Char) (c : Char), ¬ c = '/' →
    splitSlash (m ++ [c]) = modLast (fun s => s ++ [c]) (splitSlash m)
  | [], c, hc => by simp [splitSlash, modLast, hc]
  | c2 :: m, c, hc => by
    by_cases hc2 : c2 = '/'
    · subst hc2
      rw [List.cons_append, splitSlash_cons_slash, splitSlash_cons_slash,
        splitSlash_append_char m c hc,
        modLast_cons_of_ne_nil _ _ (splitSlash m) (splitSlash_ne_nil m)]
    · obtain ⟨s, ss, hsp, hsp2⟩ := splitSlash_cons_ne c2 m hc2
      have hrec := splitSlash_append_char m c hc
      rw [hsp] at hrec
      obtain ⟨s2, ss2, hsp3, hsp4⟩ := splitSlash_cons_ne c2 (m ++ [c]) hc2
      rw [List.cons_append, hsp4, hsp2]
      rw [hrec] at hsp3
      cases ss with
      | nil =>
        simp only [modLast] at hsp3 ⊢
        cases hsp3
        rfl
      | cons s3 ss3 =>
        rw [modLast_cons_of_ne_nil _ _ (s3 :: ss3) (by simp)] at hsp3
        cases hsp3
        rw [modLast_cons_of_ne_nil _ _ (s3 :: ss3) (by simp)]

theorem splitSlash_reverse : ∀ l : List Char,
    splitSlash l.reverse = ((splitSlash l).map List.reverse).reverse
  | [] => by simp [splitSlash]
  | c :: t => by
    by_cases hc : c = '/'
    · subst hc
      rw [List.reverse_cons, splitSlash_append_slash, splitSlash_reverse t,
        splitSlash_cons_slash]
      simp
    · obtain ⟨s, ss, hsp, hsp2⟩ := splitSlash_cons_ne c t hc
      rw [List.reverse_cons, splitSlash_append_char t.reverse c hc, splitSlash_reverse t,
        hsp, hsp2]
      simp only [List.map_cons, List.reverse_cons, modLast_append_singleton]

theorem spec_segments_reverse_length (l : List Char) :
    (spec_segments l.reverse).length = (spec_segments l).length := by
  rw [spec_segments, spec_segments, splitSlash_reverse, List.filter_reverse,
    List.length_reverse, List.filter_map, List.length_map]
  congr 1
  apply List.filter_congr
  intro s _
  show (!s.reverse.isEmpty) = (!s.isEmpty)
  cases s with
  | nil => rfl
  | cons a t => simp

theorem spec_segments_strip_length (l : List Char) :
    (spec_segments (stripSlashes l)).length = (spec_segments l).length := by
  rw [stripSlashes, spec_segments_reverse_length, spec_segments_dropWhile,
    spec_segments_reverse_length, spec_segments_dropWhile]

theorem head?_dropWhile_not (p : Char → Bool) :
    ∀ (l : List Char) (c : Char), (l.dropWhile p).head? = some c → p c = false
  | [], c, h => by simp at h
  | a :: t, c, h => by
    by_cases ha : p a = true
    · rw [List.dropWhile_cons, if_pos ha] at h
      exact head?_dropWhile_not p t c h
    · rw [List.dropWhile_cons, if_neg ha] at h
      simp only [List.head?_cons, Option.some.injEq] at h
      subst h
      exact Bool.not_eq_true _ ▸ ha

theorem getLast?_dropWhile (p : Char → Bool) :
    ∀ l : List Char, l.dropWhile p ≠ [] → (l.dropWhile p).getLast? = l.getLast?
  | [], h => absurd rfl h
  | a :: t, h => by
    by_cases ha : p a = true
    · rw [List.dropWhile_cons, if_pos ha] at h ⊢
      rw [getLast?_dropWhile p t h]
      have ht : t ≠ [] := by
        intro h0
        subst h0
        simp at h
      cases t with
      | nil => exact absurd rfl ht
      | cons b t2 => rw [List.getLast?_cons_cons]
    · rw [List.dropWhile_cons, if_neg ha]

theorem stripSlashes_getLast? (l : List Char) (c : Char)
    (h : (stripSlashes l).getLast? = some c) : ¬ c = '/' := by
  rw [stripSlashes, List.getLast?_reverse] at h
  have := head?_dropWhile_not (fun x => x == '/') _ c h
  simpa using this

theorem stripSlashes_head? (l : List Char) (c : Char)
    (h : (stripSlashes l).head? = some c) : ¬ c = '/' := by
  rw [stripSlashes, List.head?_reverse] at h
  have hne : (l.dropWhile (fun x => x == '/')).reverse.dropWhile (fun x => x == '/') ≠ [] := by
    intro h0
    rw [h0] at h
    simp at h
  rw [getLast?_dropWhile _ _ hne, List.getLast?_reverse] at h
  have := head?_dropWhile_not (fun x => x == '/') l c h
  simpa using this

theorem mem_of_getLast?_eq (l : List (List Char)) (a : List Char)
    (h : l.getLast? = some a) : a ∈ l := by
  have hx : a ∈ l.getLast? := Option.mem_def.mpr h
  obtain ⟨hne, heq⟩ := List.mem_getLast?_eq_getLast hx
  rw [heq]
  exact List.getLast_mem hne

theorem not_mem_strip_iff_segments (l : List Char) :
    '/' ∉ stripSlashes l ↔ (spec_segments l).length ≤ 1 := by
  rw [← spec_segments_strip_length l]
  constructor
  · intro h
    rw [spec_segments, splitSlash_of_not_mem _ h]
    exact le_trans (List.length_filter_le _ _) (by simp)
  · intro h
    by_contra hmem
    have hcount : 1 ≤ (stripSlashes l).count '/' := List.count_pos_iff.mpr hmem
    have hlen : 2 ≤ (splitSlash (stripSlashes l)).length := by
      rw [length_splitSlash]
      omega
    have hm_ne : stripSlashes l ≠ [] := by
      intro h0
      rw [h0] at hmem
      simp at hmem
    obtain ⟨c, t, hct⟩ : ∃ c t, stripSlashes l = c :: t := by
      cases hm : stripSlashes l with
      | nil => exact absurd hm hm_ne
      | cons c t => exact ⟨c, t, rfl⟩
    have hc : ¬ c = '/' := stripSlashes_head? l c (by rw [hct]; rfl)
    obtain ⟨s0, ss0, hsp0, hsp1⟩ := splitSlash_cons_ne c t hc
    rw [hct, hsp1] at hlen
    have hss0 : ss0 ≠ [] := by
      intro h0
      rw [h0] at hlen
      simp at hlen
    -- the last chunk of the split is non-empty, since the strip removed
    -- trailing slashes
    have hrev_ne : (stripSlashes l).reverse ≠ [] := by
      simpa [List.reverse_eq_nil_iff] using hm_ne
    obtain ⟨c2, t2, hct2⟩ : ∃ c2 t2, (stripSlashes l).reverse = c2 :: t2 := by
      cases hm : (stripSlashes l).reverse with
      | nil => exact absurd hm hrev_ne
      | cons c2 t2 => exact ⟨c2, t2, rfl⟩
    have hc2 : ¬ c2 = '/' := by
      refine stripSlashes_getLast? l c2 ?_
      rw [← List.head?_reverse, hct2]
      rfl
    obtain ⟨s2, ss2, hsp2, hsp3⟩ := splitSlash_cons_ne c2 t2 hc2
    have hrev : splitSlash (stripSlashes l) =
        ((splitSlash (stripSlashes l).reverse).map List.reverse).reverse := by
      have h5 := splitSlash_reverse (stripSlashes l).reverse
      rw [List.reverse_reverse] at h5
      exact h5
    have hlast : (splitSlash (stripSlashes l)).getLast? = some ((c2 :: s2).reverse) := by
      rw [hrev, List.getLast?_reverse, hct2, hsp3]
      rfl
    rw [hct, hsp1] at hlast
    have hlast2 : ss0.getLast? = some ((c2 :: s2).reverse) := by
      cases ss0 with
      | nil => exact absurd rfl hss0
      | cons b bs => rwa [List.getLast?_cons_cons] at hlast
    have hmem_last : (c2 :: s2).reverse ∈ ss0 := mem_of_getLast?_eq ss0 _ hlast2
    have h2le : 2 ≤ (spec_segments (c :: t)).length := by
      rw [spec_segments, hsp1, List.filter_cons]
      have h6 : (!(c :: s0).isEmpty) = true := by simp
      rw [if_pos h6]
      have h7 : (c2 :: s2).reverse ∈ ss0.filter (fun s => !s.isEmpty) :=
        List.mem_filter.mpr ⟨hmem_last, by simp⟩
      have h8 := List.length_pos_of_mem h7
      simp only [List.length_cons]
      omega
    rw [hct] at h
    omega

/-- Claim C9 (counterexample): the URL `http://www.mangareader.net/` parses to
the base netloc with path `/`; its path has no (non-empty) segment — certainly
not exactly one — yet `validate_url` accepts it: `path[1:]` is empty, strips
to empty, and splits into the single chunk `[""]`, passing the
`len(...) > 1` test. -/
theorem c9_counterexample :
    validate_url (ParsedUrl.mk base_netloc ['/']) = true ∧
    spec_valid_series_exact (ParsedUrl.mk base_netloc ['/']) = false := by
  refine ⟨by decide, by decide⟩

/-- Claim C9 as amended: for every parsed URL whose path is empty or
slash-leading (which is what `urlparse` yields whenever a netloc is present),
`validate_url` returns true iff the netloc equals the configured source
domain, the path is non-empty, and the path has at most one non-empty
segment — "exactly one" in the claim must be weakened to "at most one",
because an all-slash path (e.g. the site root `/`) is also accepted
(`c9_counterexample`); any other domain, an empty path, or a multi-segment
path is rejected. -/
theorem c9_validate_url :
    ∀ u : ParsedUrl, (u.path = [] ∨ u.path.head? = some '/') →
      (validate_url u = true ↔
        (u.netloc = base_netloc ∧ u.path ≠ [] ∧ (spec_segments u.path).length ≤ 1)) := by
  intro u h
  rw [validate_url]
  by_cases hn : u.netloc = base_netloc
  · rw [if_neg (by simp [hn])]
    by_cases hp : u.path = []
    · rw [if_pos hp]
      simp [hp]
    · rw [if_neg hp]
      rcases h with h | h
      · exact absurd h hp
      · obtain ⟨rest, hrest⟩ : ∃ rest, u.path = '/' :: rest := by
          cases hpath : u.path with
          | nil => exact absurd hpath hp
          | cons a t =>
            rw [hpath] at h
            simp only [List.head?_cons, Option.some.injEq] at h
            subst h
            exact ⟨t, rfl⟩
        rw [hrest, List.drop_succ_cons, List.drop_zero, spec_segments_cons_slash]
        constructor
        · intro hv
          refine ⟨hn, by simp [hrest], ?_⟩
          by_cases hcond : (splitSlash (stripSlashes rest)).length > 1
          · rw [if_pos hcond] at hv
            exact absurd hv (by simp)
          · have hle : (splitSlash (stripSlashes rest)).length ≤ 1 := by omega
            rw [length_splitSlash] at hle
            have hnm : '/' ∉ stripSlashes rest := List.count_eq_zero.mp (by omega)
            exact (not_mem_strip_iff_segments rest).mp hnm
        · rintro ⟨-, -, hseg⟩
          have hnm : '/' ∉ stripSlashes rest := (not_mem_strip_iff_segments rest).mpr hseg
          have hz : (stripSlashes rest).count '/' = 0 := List.count_eq_zero.mpr hnm
          have hlen2 : ¬ (splitSlash (stripSlashes rest)).length > 1 := by
            rw [length_splitSlash]
            omega
          rw [if_neg hlen2]
  · rw [if_pos hn]
    simp [hn]

/-- Witness for C9 as amended: applies `c9_validate_url` to the parsed URL of
`http://www.mangareader.net/x`. -/
theorem c9_witness :
    validate_url (ParsedUrl.mk base_netloc ['/', 'x']) = true ↔
      ((ParsedUrl.mk base_netloc ['/', 'x']).netloc = base_netloc ∧
        (ParsedUrl.mk base_netloc ['/', 'x']).path ≠ [] ∧
        (spec_segments (ParsedUrl.mk base_netloc ['/', 'x']).path).length ≤ 1) :=
  c9_validate_url (ParsedUrl.mk base_netloc ['/', 'x']) (Or.inr rfl)

end MangaReader
